import Mathlib

/-!
Verification development for the hi-supabase repository.

The development shallowly embeds the two components of the repository:

* the CLI script (provisioning via `init`, decommissioning via `uninstall`),
  which copies a fixed manifest of template files into a project tree,
  never writing a destination that already exists, and later removes them,
  cleaning up watched directories that became empty; and
* the data-access layer (`supabase.ts`), four thin pass-through operations
  over the remote store together with the module-initialization check of the
  two environment variables.

A filesystem is modelled as a list of (path, contents) files plus a list of
directories, with paths as lists of components.  Template lookup is a
function from template names to optional contents, so that a missing source
template (the only per-entry failure mode expressible at this level) is
representable.
-/

set_option linter.unusedVariables false

/-- Relative filesystem paths, as lists of path components. -/
abbrev FPath := List String

/-- Tests whether the node at q lies at or below p, i.e. p is a
component-wise prefix of q. -/
def isUnder : FPath → FPath → Bool
  | [], _ => true
  | _ :: _, [] => false
  | a :: as, b :: bs => a == b && isUnder as bs

/-- A project tree: files with their contents, and the set of directories. -/
structure FS where
  files : List (FPath × String)
  dirs : List FPath
deriving DecidableEq, Repr

/-- Contents of the file stored at p, if any. -/
def FS.lookup (fs : FS) (p : FPath) : Option String :=
  (fs.files.find? (fun pr => pr.1 == p)).map (fun pr => pr.2)

/-- Whether a directory exists at d. -/
def FS.dirExists (fs : FS) (d : FPath) : Bool :=
  fs.dirs.any (fun q => q == d)

/-- Model of fs.existsSync: a file or a directory is present at p. -/
def FS.existsSync (fs : FS) (p : FPath) : Bool :=
  (fs.lookup p).isSome || fs.dirExists p

/-- All nonempty component-wise prefixes of a path, shortest first. -/
def initsOf (d : FPath) : List FPath :=
  (List.range d.length).map (fun k => d.take (k + 1))

/-- Model of fs.ensureDir: create the directory at d together with every
missing ancestor.  Files are untouched. -/
def FS.ensureDir (fs : FS) (d : FPath) : FS :=
  ⟨fs.files, fs.dirs ++ (initsOf d).filter (fun q => !(fs.dirs.any (fun x => x == q)))⟩

/-- Model of writing a fresh file: used only on a destination that does not
exist, which is the only write the guarded fs.copy calls ever perform. -/
def FS.writeFile (fs : FS) (p : FPath) (c : String) : FS :=
  ⟨fs.files ++ [(p, c)], fs.dirs⟩

/-- Model of fs.remove: delete the node at p and everything below it. -/
def FS.removeAll (fs : FS) (p : FPath) : FS :=
  ⟨fs.files.filter (fun pr => !(isUnder p pr.1)),
   fs.dirs.filter (fun d => !(isUnder p d))⟩

/-- Model of the readdir emptiness test: no node lies strictly below d. -/
def FS.dirEmpty (fs : FS) (d : FPath) : Bool :=
  fs.files.all (fun pr => !(isUnder d pr.1) || pr.1 == d) &&
  fs.dirs.all (fun q => !(isUnder d q) || q == d)

/-- A manifest entry of the CLI script: template source name, destination
path relative to the project root, and the success message. -/
structure ManifestEntry where
  src : String
  dest : FPath
  msg : String
deriving DecidableEq, Repr

/-- The fixed five-entry manifest filesToCopy of the CLI script. -/
def filesToCopy : List ManifestEntry :=
  [⟨"route.ts", ["app", "api", "keep-alive", "route.ts"],
    "Created API route at app/api/keep-alive/route.ts"⟩,
   ⟨"keepAliveUtils.ts", ["app", "api", "keep-alive", "keepAliveUtils.ts"],
    "Created utils at app/api/keep-alive/keepAliveUtils.ts"⟩,
   ⟨"keep-alive-config.ts", ["config", "keep-alive-config.ts"],
    "Created config at config/keep-alive-config.ts"⟩,
   ⟨"keep-alive.sql", ["keep-alive.sql"],
    "Created SQL script at keep-alive.sql"⟩,
   ⟨"vercel.json", ["vercel.json"],
    "Created vercel.json at vercel.json"⟩]

/-- Per-entry outcome of provisioning, per the spec taxonomy.  The
SkippedExisting outcome belongs to the taxonomy but is never produced by
the program: the branch of init that would report it compares err.code
with EEXIST, and the error thrown for an existing destination carries no
code property at all (see provisionEntry). -/
inductive ProvisionOutcome
  | Created
  | SkippedExisting
  | Failed (reason : String)
deriving DecidableEq, Repr

/-- Parent directory of a path (dirname). -/
def parentDir (p : FPath) : FPath := p.dropLast

/-- The templates directory shipped with the package: a template name is
mapped to its contents, or to none when no such template exists. -/
abbrev Templates := String → Option String

/-- Message of the error the copy throws for a pre-existing destination:
with overwrite disabled and errorOnExist set, fs-extra throws a plain
Error whose message is the destination path followed by already exists.
The original message wraps the destination in single quotes and uses the
absolute path; the quotes and the project-root prefix are omitted here,
paths being relative to the project root throughout the model. -/
def alreadyExistsMsg (e : ManifestEntry) : String :=
  String.intercalate "/" e.dest ++ " already exists"

/-- One iteration of the copy loop of init: ensure the parent directory of
the destination exists, then copy the source template onto the destination
with overwrite disabled and errorOnExist set.  A missing source template
makes the copy throw, caught per entry (Failed).  A pre-existing
destination makes the copy throw a plain Error that carries no code
property, so the comparison of err.code with EEXIST in the catch of init
is never true and such an entry is reported through the generic error
branch: Failed with the already-exists message (the skipped log branch is
dead code).  In both error cases the destination is never written. -/
def provisionEntry (t : Templates) (fs : FS) (e : ManifestEntry) :
    FS × ProvisionOutcome :=
  let fs1 := fs.ensureDir (parentDir e.dest)
  match t e.src with
  | none => (fs1, .Failed ("Source does not exist: " ++ e.src))
  | some c =>
    if fs1.existsSync e.dest then (fs1, .Failed (alreadyExistsMsg e))
    else (fs1.writeFile e.dest c, .Created)

/-- The copy loop of init over a list of manifest entries, in order,
collecting the per-entry outcomes. -/
def provisionList (t : Templates) (fs : FS) :
    List ManifestEntry → FS × List ProvisionOutcome
  | [] => (fs, [])
  | e :: es =>
    let r1 := provisionEntry t fs e
    let r2 := provisionList t r1.1 es
    (r2.1, r1.2 :: r2.2)

/-- Canonical path of the database client file. -/
def serverClientPath : FPath := ["lib", "supabase", "server.ts"]

/-- Alternate common locations of a user-provided database client that the
script checks in order to warn about possible duplication. -/
def commonPaths : List FPath :=
  [["utils", "supabase", "server.ts"],
   ["lib", "supabase", "client.ts"],
   ["utils", "supabase", "client.ts"]]

/-- Result of checkAndCreateSupabaseClient: the resulting tree, the alternate
paths warned about, and whether the canonical client file was created. -/
structure CheckClientResult where
  fs : FS
  warnings : List FPath
  created : Bool
deriving DecidableEq, Repr

/-- Model of checkAndCreateSupabaseClient: when the canonical path already
holds a file, do nothing; otherwise warn about every populated alternate
common path and still create the client at the canonical path from the
supabase-server.ts template (the creation error path is reached only when
that template is missing, and is caught). -/
def checkAndCreateSupabaseClient (t : Templates) (fs : FS) : CheckClientResult :=
  if fs.existsSync serverClientPath then ⟨fs, [], false⟩
  else
    let warns := commonPaths.filter (fun p => fs.existsSync p)
    let fs1 := fs.ensureDir (parentDir serverClientPath)
    match t "supabase-server.ts" with
    | none => ⟨fs1, warns, false⟩
    | some c => ⟨fs1.writeFile serverClientPath c, warns, true⟩

/-- JavaScript truthiness of an optional environment variable: an absent
variable and the empty string are falsy. -/
def jsTruthy : Option String → Bool
  | none => false
  | some s => !(s == "")

/-- Result of one run of init: the resulting tree, the ordered per-entry
outcomes of the copy loop, whether the environment-variable warning fired,
and the client-check output. -/
structure InitResult where
  fs : FS
  outcomes : List ProvisionOutcome
  envWarning : Bool
  clientWarnings : List FPath
  clientCreated : Bool
deriving DecidableEq, Repr

/-- Model of init: warn (only) when either environment variable is falsy,
run the copy loop over the manifest, then check-and-create the client file.
The dependency-installation step touches no modelled file and is omitted. -/
def init (t : Templates) (url anonKey : Option String) (fs : FS) : InitResult :=
  let envWarn := !(jsTruthy url) || !(jsTruthy anonKey)
  let r := provisionList t fs filesToCopy
  let ck := checkAndCreateSupabaseClient t r.1
  ⟨ck.fs, r.2, envWarn, ck.warnings, ck.created⟩

/-- Per-entry outcome of decommissioning, per the spec taxonomy. -/
inductive RemovalOutcome
  | Deleted
  | NotFound
  | Failed (reason : String)
deriving DecidableEq, Repr

/-- The fixed removal manifest filesToDelete of the CLI script. -/
def filesToDelete : List FPath :=
  [["app", "api", "keep-alive", "route.ts"],
   ["app", "api", "keep-alive", "keepAliveUtils.ts"],
   ["config", "keep-alive-config.ts"],
   ["keep-alive.sql"],
   ["vercel.json"]]

/-- One iteration of the deletion loop of uninstall: remove the path when
present, and report a distinct NotFound outcome when absent. -/
def removeEntry (fs : FS) (p : FPath) : FS × RemovalOutcome :=
  if fs.existsSync p then (fs.removeAll p, .Deleted) else (fs, .NotFound)

/-- The deletion loop of uninstall over a list of paths, in order,
collecting the per-entry outcomes. -/
def removeList (fs : FS) : List FPath → FS × List RemovalOutcome
  | [] => (fs, [])
  | p :: ps =>
    let r1 := removeEntry fs p
    let r2 := removeList r1.1 ps
    (r2.1, r1.2 :: r2.2)

/-- The watch-list dirsToClean of uninstall. -/
def dirsToClean : List FPath := [["app", "api", "keep-alive"], ["config"]]

/-- One iteration of the directory-cleanup loop of uninstall: a watched
directory is removed exactly when it exists and readdir reports it empty.
On a real filesystem readdir requires a directory, so the existence test is
the directory test here. -/
def cleanDir (fs : FS) (d : FPath) : FS :=
  if fs.dirExists d then (if fs.dirEmpty d then fs.removeAll d else fs) else fs

/-- Model of uninstall: the deletion loop over the removal manifest followed
by the directory-cleanup loop over the watch-list. -/
def uninstall (fs : FS) : FS × List RemovalOutcome :=
  let r := removeList fs filesToDelete
  (dirsToClean.foldl cleanDir r.1, r.2)

/-- The provisioning command with its surrounding catch handler: the
modelled flow always completes normally. -/
def runInit (t : Templates) (url anonKey : Option String) (fs : FS) :
    Except String InitResult :=
  .ok (init t url anonKey fs)

/-- The decommissioning command with its surrounding catch handler. -/
def runUninstall (fs : FS) : Except String (FS × List RemovalOutcome) :=
  .ok (uninstall fs)

/-- Process exit status of a command run: 0 on completion, 1 when the catch
handler receives an unexpected error. -/
def exitCode {α : Type} : Except String α → Nat
  | .ok _ => 0
  | .error _ => 1

/-- Closed status enumeration of a chatbot record. -/
inductive ChatbotStatus
  | active
  | inactive
deriving DecidableEq, Repr

/-- The ChatbotType record of supabase.ts; optional fields are Options. -/
structure Chatbot where
  id : String
  user_id : String
  created_at : String
  org_name : String
  users : Option Nat
  org_type : String
  description : String
  bot_name : String
  greeting : String
  tone : String
  enable_booking : Bool
  enable_top_five : Bool
  enable_map : Bool
  top_five_items : List String
  booking_link : String
  map_embed_url : String
  bot_slug : String
  qr_code_url : Option String
  enable_form : Option Bool
  status : Option ChatbotStatus
  last_active : Option String
  interactions : Option Nat
deriving DecidableEq, Repr

/-- The insert payload of createChatbot: ChatbotType without the generated
id and created_at fields. -/
structure ChatbotInsert where
  user_id : String
  org_name : String
  users : Option Nat
  org_type : String
  description : String
  bot_name : String
  greeting : String
  tone : String
  enable_booking : Bool
  enable_top_five : Bool
  enable_map : Bool
  top_five_items : List String
  booking_link : String
  map_embed_url : String
  bot_slug : String
  qr_code_url : Option String
  enable_form : Option Bool
  status : Option ChatbotStatus
  last_active : Option String
  interactions : Option Nat
deriving DecidableEq, Repr

/-- The error object reported by the remote store. -/
structure RemoteError where
  message : String
  code : String
deriving DecidableEq, Repr

/-- Response of a remote query: the data slot and the error slot, as
destructured by the wrappers. -/
structure SingleResp (α : Type) where
  data : Option α
  error : Option RemoteError
deriving DecidableEq, Repr

/-- Response of a remote delete call: the wrappers destructure only the
error slot, so no record information is available to the caller. -/
structure DeleteResp where
  error : Option RemoteError
deriving DecidableEq, Repr

/-- Module-initialization code of supabase.ts: read the two environment
variables and throw when either is falsy, otherwise build the client. -/
def loadSupabaseModule (url anonKey : Option String) :
    Except String (String × String) :=
  if !(jsTruthy url) || !(jsTruthy anonKey) then
    .error "Missing Supabase environment variables"
  else .ok (url.getD "", anonKey.getD "")

/-- createChatbot: re-raise the reported error verbatim, otherwise return
the inserted record exactly as the remote store returned it. -/
def createChatbot (data : ChatbotInsert) (resp : SingleResp Chatbot) :
    Except RemoteError (Option Chatbot) :=
  match resp.error with
  | some e => .error e
  | none => .ok resp.data

/-- getChatbotsByUserId: re-raise the reported error verbatim, otherwise
return the record list exactly as the remote store returned it. -/
def getChatbotsByUserId (userId : String) (resp : SingleResp (List Chatbot)) :
    Except RemoteError (Option (List Chatbot)) :=
  match resp.error with
  | some e => .error e
  | none => .ok resp.data

/-- getChatbotBySlug: re-raise the reported error verbatim, otherwise return
the record exactly as the remote store returned it. -/
def getChatbotBySlug (slug : String) (resp : SingleResp Chatbot) :
    Except RemoteError (Option Chatbot) :=
  match resp.error with
  | some e => .error e
  | none => .ok resp.data

/-- deleteChatbot: re-raise the reported error verbatim, otherwise return
true; no other outcome is expressible. -/
def deleteChatbot (id : String) (resp : DeleteResp) :
    Except RemoteError Bool :=
  match resp.error with
  | some e => .error e
  | none => .ok true

/-- Modelled from the spec: the delete call of the external remote managed
store (an out-of-scope collaborator, interface only): rows whose id matches
are removed and the call reports no error whether or not any row matched. -/
def remoteDelete (tbl : List Chatbot) (id : String) : List Chatbot × DeleteResp :=
  (tbl.filter (fun b => !(b.id == id)), ⟨none⟩)

/-- A sample template directory holding every template the package ships;
the contents of a template are its name. -/
def sampleTemplates : Templates := fun s => some s

/-- A template directory whose route.ts template is missing. -/
def brokenTemplates : Templates :=
  fun s => if s == "route.ts" then none else some s

/-- Whether every template the script copies from is present. -/
def templatesComplete (t : Templates) : Bool :=
  filesToCopy.all (fun e => (t e.src).isSome) && (t "supabase-server.ts").isSome

/-- The empty project tree. -/
def emptyFS : FS := ⟨[], []⟩

/-! Basic lemmas about paths and the filesystem model. -/

theorem isUnder_refl (p : FPath) : isUnder p p = true := by
  induction p with
  | nil => rfl
  | cons a as ih => simp [isUnder, ih]

theorem isUnder_head_disjoint {a b : String} (as bs q : FPath) (hab : a ≠ b)
    (h : isUnder (a :: as) q = true) : isUnder (b :: bs) q = false := by
  cases q with
  | nil => simp [isUnder] at h
  | cons c cs =>
    simp only [isUnder, Bool.and_eq_true, beq_iff_eq] at h
    have hbc : (b == c) = false := by
      refine beq_eq_false_iff_ne.2 ?_
      rw [← h.1]
      exact fun hba => hab hba.symm
    simp [isUnder, hbc]

theorem FS.lookup_ensureDir (fs : FS) (d p : FPath) :
    (fs.ensureDir d).lookup p = fs.lookup p := rfl

theorem FS.files_ensureDir (fs : FS) (d : FPath) :
    (fs.ensureDir d).files = fs.files := rfl

theorem FS.dirExists_ensureDir_mono (fs : FS) (d q : FPath)
    (h : fs.dirExists q = true) : (fs.ensureDir d).dirExists q = true := by
  simp only [FS.dirExists, FS.ensureDir, List.any_append, Bool.or_eq_true]
  exact Or.inl h

theorem FS.existsSync_ensureDir_mono (fs : FS) (d q : FPath)
    (h : fs.existsSync q = true) : (fs.ensureDir d).existsSync q = true := by
  simp only [FS.existsSync, Bool.or_eq_true] at h ⊢
  rcases h with h | h
  · exact Or.inl (by rw [FS.lookup_ensureDir]; exact h)
  · exact Or.inr (fs.dirExists_ensureDir_mono d q h)

theorem FS.lookup_writeFile_mono (fs : FS) (p q : FPath) (c c2 : String)
    (h : fs.lookup q = some c) : (fs.writeFile p c2).lookup q = some c := by
  unfold FS.lookup FS.writeFile at *
  rcases hf : fs.files.find? (fun pr => pr.1 == q) with _ | pr
  · rw [hf] at h; simp at h
  · rw [hf] at h
    simp only [List.find?_append, hf, Option.or, h]

theorem FS.lookup_writeFile_self (fs : FS) (p : FPath) (c : String)
    (h : fs.lookup p = none) : (fs.writeFile p c).lookup p = some c := by
  unfold FS.lookup FS.writeFile at *
  rcases hf : fs.files.find? (fun pr => pr.1 == p) with _ | pr
  · simp only [List.find?_append, hf, Option.or]
    rw [List.find?_cons_of_pos _ (by simp)]
    rfl
  · rw [hf] at h; simp at h

theorem FS.dirExists_writeFile (fs : FS) (p q : FPath) (c : String) :
    (fs.writeFile p c).dirExists q = fs.dirExists q := rfl

theorem FS.existsSync_writeFile_mono (fs : FS) (p q : FPath) (c : String)
    (h : fs.existsSync q = true) : (fs.writeFile p c).existsSync q = true := by
  simp only [FS.existsSync, Bool.or_eq_true, FS.dirExists_writeFile] at h ⊢
  rcases h with h | h
  · left
    rcases ho : fs.lookup q with _ | v
    · rw [ho] at h; simp at h
    · have := fs.lookup_writeFile_mono p q v c ho
      simp [this]
  · exact Or.inr h

theorem FS.existsSync_writeFile_self (fs : FS) (p : FPath) (c : String) :
    (fs.writeFile p c).existsSync p = true := by
  simp only [FS.existsSync, Bool.or_eq_true]
  rcases ho : fs.lookup p with _ | v
  · have := fs.lookup_writeFile_self p c ho
    exact Or.inl (by simp [this])
  · have := fs.lookup_writeFile_mono p p v c ho
    exact Or.inl (by simp [this])

/-! Lemmas about the provisioning loop. -/

theorem provisionEntry_lookup_mono (t : Templates) (fs : FS) (e : ManifestEntry)
    (q : FPath) (c : String) (h : fs.lookup q = some c) :
    (provisionEntry t fs e).1.lookup q = some c := by
  unfold provisionEntry
  rcases t e.src with _ | tc
  · simpa [FS.lookup_ensureDir] using h
  · by_cases hex : (fs.ensureDir (parentDir e.dest)).existsSync e.dest = true
    · simpa [hex, FS.lookup_ensureDir] using h
    · simp only [Bool.not_eq_true] at hex
      simp only [hex, Bool.false_eq_true, if_false]
      exact FS.lookup_writeFile_mono _ _ _ _ _ (by simpa [FS.lookup_ensureDir] using h)

theorem provisionEntry_existsSync_mono (t : Templates) (fs : FS)
    (e : ManifestEntry) (q : FPath) (h : fs.existsSync q = true) :
    (provisionEntry t fs e).1.existsSync q = true := by
  unfold provisionEntry
  have h1 := fs.existsSync_ensureDir_mono (parentDir e.dest) q h
  rcases t e.src with _ | tc
  · exact h1
  · by_cases hex : (fs.ensureDir (parentDir e.dest)).existsSync e.dest = true
    · simpa [hex] using h1
    · simp only [Bool.not_eq_true] at hex
      simp only [hex, Bool.false_eq_true, if_false]
      exact FS.existsSync_writeFile_mono _ _ _ _ h1

theorem provisionEntry_dest_exists (t : Templates) (fs : FS) (e : ManifestEntry)
    (h : (t e.src).isSome = true) :
    (provisionEntry t fs e).1.existsSync e.dest = true := by
  unfold provisionEntry
  rcases ht : t e.src with _ | tc
  · rw [ht] at h; simp at h
  · by_cases hex : (fs.ensureDir (parentDir e.dest)).existsSync e.dest = true
    · simp [hex]
    · simp only [Bool.not_eq_true] at hex
      simp only [hex, Bool.false_eq_true, if_false]
      exact FS.existsSync_writeFile_self _ _ _

theorem provisionEntry_already_exists (t : Templates) (fs : FS)
    (e : ManifestEntry) (tc : String) (h1 : t e.src = some tc)
    (h2 : fs.existsSync e.dest = true) :
    provisionEntry t fs e =
      (fs.ensureDir (parentDir e.dest),
        ProvisionOutcome.Failed (alreadyExistsMsg e)) := by
  unfold provisionEntry
  rw [h1]
  simp [fs.existsSync_ensureDir_mono (parentDir e.dest) e.dest h2]

theorem provisionList_length (t : Templates) (es : List ManifestEntry) :
    ∀ fs : FS, (provisionList t fs es).2.length = es.length := by
  induction es with
  | nil => intro fs; rfl
  | cons e es ih =>
    intro fs
    simp only [provisionList, List.length_cons]
    rw [ih]

theorem provisionList_lookup_mono (t : Templates) (es : List ManifestEntry) :
    ∀ (fs : FS) (q : FPath) (c : String), fs.lookup q = some c →
      (provisionList t fs es).1.lookup q = some c := by
  induction es with
  | nil => intro fs q c h; exact h
  | cons e es ih =>
    intro fs q c h
    exact ih _ q c (provisionEntry_lookup_mono t fs e q c h)

theorem provisionList_existsSync_mono (t : Templates) (es : List ManifestEntry) :
    ∀ (fs : FS) (q : FPath), fs.existsSync q = true →
      (provisionList t fs es).1.existsSync q = true := by
  induction es with
  | nil => intro fs q h; exact h
  | cons e es ih =>
    intro fs q h
    exact ih _ q (provisionEntry_existsSync_mono t fs e q h)

theorem provisionList_get?_already_exists (t : Templates)
    (es : List ManifestEntry) :
    ∀ (fs : FS) (i : Nat) (e : ManifestEntry), es.get? i = some e →
      (t e.src).isSome = true → fs.existsSync e.dest = true →
      (provisionList t fs es).2.get? i =
        some (ProvisionOutcome.Failed (alreadyExistsMsg e)) := by
  induction es with
  | nil => intro fs i e hg; simp [List.get?] at hg
  | cons e0 es ih =>
    intro fs i e hg ht hex
    cases i with
    | zero =>
      simp only [List.get?] at hg
      injection hg with he
      subst he
      rcases hsome : t e0.src with _ | tc
      · rw [hsome] at ht; simp at ht
      · have hsk := provisionEntry_already_exists t fs e0 tc hsome hex
        simp [provisionList, hsk, List.get?]
    | succ i =>
      simp only [List.get?] at hg
      simp only [provisionList, List.get?]
      exact ih _ i e hg ht (provisionEntry_existsSync_mono t fs e0 e.dest hex)

theorem provisionList_dests_exist (t : Templates) (es : List ManifestEntry) :
    ∀ fs : FS, (∀ e ∈ es, (t e.src).isSome = true) →
      ∀ e ∈ es, (provisionList t fs es).1.existsSync e.dest = true := by
  induction es with
  | nil => intro fs h e he; simp at he
  | cons e0 es ih =>
    intro fs h e he
    rcases List.mem_cons.1 he with he0 | hes
    · subst he0
      exact provisionList_existsSync_mono t es _ e.dest
        (provisionEntry_dest_exists t fs e (h e (List.mem_cons_self e es)))
    · exact ih _ (fun x hx => h x (List.mem_cons_of_mem e0 hx)) e hes

theorem provisionList_second_run (t : Templates) (es : List ManifestEntry) :
    ∀ fs : FS, (∀ e ∈ es, (t e.src).isSome = true) →
      (∀ e ∈ es, fs.existsSync e.dest = true) →
      (provisionList t fs es).2 =
          es.map (fun e => ProvisionOutcome.Failed (alreadyExistsMsg e)) ∧
        (provisionList t fs es).1.files = fs.files := by
  induction es with
  | nil => intro fs ht hex; exact ⟨rfl, rfl⟩
  | cons e0 es ih =>
    intro fs ht hex
    rcases hsome : t e0.src with _ | tc
    · have := ht e0 (List.mem_cons_self e0 es)
      rw [hsome] at this; simp at this
    · have hskip := provisionEntry_already_exists t fs e0 tc hsome
        (hex e0 (List.mem_cons_self e0 es))
      have hmono : ∀ e ∈ es, (fs.ensureDir (parentDir e0.dest)).existsSync e.dest = true :=
        fun e he => fs.existsSync_ensureDir_mono _ _
          (hex e (List.mem_cons_of_mem e0 he))
      have hrec := ih (fs.ensureDir (parentDir e0.dest))
        (fun e he => ht e (List.mem_cons_of_mem e0 he)) hmono
      constructor
      · simp only [provisionList, hskip, List.map_cons]
        rw [hrec.1]
      · simp only [provisionList, hskip]
        rw [hrec.2, FS.files_ensureDir]

/-! Lemmas about the client-file check and about init as a whole. -/

theorem checkClient_lookup_mono (t : Templates) (fs : FS) (q : FPath)
    (c : String) (h : fs.lookup q = some c) :
    (checkAndCreateSupabaseClient t fs).fs.lookup q = some c := by
  unfold checkAndCreateSupabaseClient
  by_cases hex : fs.existsSync serverClientPath = true
  · simp [hex, h]
  · simp only [Bool.not_eq_true] at hex
    simp only [hex, Bool.false_eq_true, if_false]
    rcases t "supabase-server.ts" with _ | tc
    · simpa [FS.lookup_ensureDir] using h
    · exact FS.lookup_writeFile_mono _ _ _ _ _ (by simpa [FS.lookup_ensureDir] using h)

theorem checkClient_existsSync_mono (t : Templates) (fs : FS) (q : FPath)
    (h : fs.existsSync q = true) :
    (checkAndCreateSupabaseClient t fs).fs.existsSync q = true := by
  unfold checkAndCreateSupabaseClient
  by_cases hex : fs.existsSync serverClientPath = true
  · simp [hex, h]
  · simp only [Bool.not_eq_true] at hex
    simp only [hex, Bool.false_eq_true, if_false]
    have h1 := fs.existsSync_ensureDir_mono (parentDir serverClientPath) q h
    rcases t "supabase-server.ts" with _ | tc
    · exact h1
    · exact FS.existsSync_writeFile_mono _ _ _ _ h1

theorem checkClient_client_exists (t : Templates) (fs : FS)
    (h : (t "supabase-server.ts").isSome = true) :
    (checkAndCreateSupabaseClient t fs).fs.existsSync serverClientPath = true := by
  unfold checkAndCreateSupabaseClient
  by_cases hex : fs.existsSync serverClientPath = true
  · simp [hex]
  · simp only [Bool.not_eq_true] at hex
    simp only [hex, Bool.false_eq_true, if_false]
    rcases ht : t "supabase-server.ts" with _ | tc
    · rw [ht] at h; simp at h
    · exact FS.existsSync_writeFile_self _ _ _

theorem checkClient_noop (t : Templates) (fs : FS)
    (h : fs.existsSync serverClientPath = true) :
    checkAndCreateSupabaseClient t fs = ⟨fs, [], false⟩ := by
  unfold checkAndCreateSupabaseClient
  simp [h]

theorem init_outcomes_eq (t : Templates) (url anonKey : Option String) (fs : FS) :
    (init t url anonKey fs).outcomes = (provisionList t fs filesToCopy).2 := rfl

theorem init_lookup_mono (t : Templates) (url anonKey : Option String) (fs : FS)
    (q : FPath) (c : String) (h : fs.lookup q = some c) :
    (init t url anonKey fs).fs.lookup q = some c := by
  unfold init
  exact checkClient_lookup_mono t _ q c
    (provisionList_lookup_mono t filesToCopy fs q c h)

theorem init_outcomes_length (t : Templates) (url anonKey : Option String)
    (fs : FS) : (init t url anonKey fs).outcomes.length = filesToCopy.length := by
  rw [init_outcomes_eq]
  exact provisionList_length t filesToCopy fs

/-! Lemmas about removal and directory cleanup. -/

theorem all_filter_of_dropped_sat {α : Type} (l : List α) (keep g : α → Bool)
    (h : ∀ x ∈ l, keep x = false → g x = true) :
    (l.filter keep).all g = l.all g := by
  induction l with
  | nil => rfl
  | cons a l ih =>
    by_cases hk : keep a = true
    · simp only [List.filter_cons, hk, if_true, List.all_cons]
      rw [ih (fun x hx => h x (List.mem_cons_of_mem a hx))]
    · simp only [Bool.not_eq_true] at hk
      have hga := h a (List.mem_cons_self a l) hk
      simp only [List.filter_cons, hk, Bool.false_eq_true, if_false, List.all_cons, hga,
        Bool.true_and]
      exact ih (fun x hx => h x (List.mem_cons_of_mem a hx))

theorem find?_filter_not_under (l : List (FPath × String)) (p q : FPath)
    (h : isUnder p q = false) :
    (l.filter (fun pr => !(isUnder p pr.1))).find? (fun pr => pr.1 == q) =
      l.find? (fun pr => pr.1 == q) := by
  induction l with
  | nil => rfl
  | cons pr l ih =>
    by_cases hk : (pr.1 == q) = true
    · have hpq : pr.1 = q := beq_iff_eq.1 hk
      have hkeep : (!(isUnder p pr.1)) = true := by rw [hpq, h]; rfl
      simp only [List.filter_cons, hkeep, if_true]
      rw [@List.find?_cons_of_pos _ (fun pr => pr.1 == q) pr _ hk,
        @List.find?_cons_of_pos _ (fun pr => pr.1 == q) pr _ hk]
    · by_cases hkeep : (!(isUnder p pr.1)) = true
      · simp only [List.filter_cons, hkeep, if_true]
        rw [@List.find?_cons_of_neg _ (fun pr => pr.1 == q) pr _ (by simp [hk]),
          @List.find?_cons_of_neg _ (fun pr => pr.1 == q) pr _ (by simp [hk])]
        exact ih
      · simp only [Bool.not_eq_true] at hkeep
        simp only [List.filter_cons, hkeep, Bool.false_eq_true, if_false]
        rw [@List.find?_cons_of_neg _ (fun pr => pr.1 == q) pr _ (by simp [hk])]
        exact ih

theorem FS.lookup_removeAll_of_not_under (fs : FS) (p q : FPath)
    (h : isUnder p q = false) : (fs.removeAll p).lookup q = fs.lookup q := by
  unfold FS.lookup FS.removeAll
  rw [find?_filter_not_under fs.files p q h]

theorem FS.dirExists_removeAll_of_not_under (fs : FS) (p q : FPath)
    (h : isUnder p q = false) : (fs.removeAll p).dirExists q = fs.dirExists q := by
  unfold FS.dirExists FS.removeAll
  rw [List.any_filter]
  have hfun : (fun d => (!(isUnder p d)) && (d == q)) = (fun d : FPath => d == q) := by
    funext d
    by_cases hd : (d == q) = true
    · have : d = q := beq_iff_eq.1 hd
      subst this
      simp [h]
    · simp only [Bool.not_eq_true] at hd
      simp [hd]
  rw [hfun]

theorem FS.existsSync_removeAll_of_not_under (fs : FS) (p q : FPath)
    (h : isUnder p q = false) : (fs.removeAll p).existsSync q = fs.existsSync q := by
  unfold FS.existsSync
  rw [fs.lookup_removeAll_of_not_under p q h, fs.dirExists_removeAll_of_not_under p q h]

theorem FS.lookup_removeAll_self (fs : FS) (p : FPath) :
    (fs.removeAll p).lookup p = none := by
  unfold FS.lookup FS.removeAll
  have : (fs.files.filter (fun pr => !(isUnder p pr.1))).find?
      (fun pr => pr.1 == p) = none := by
    refine List.find?_eq_none.2 ?_
    intro x hx hkey
    rcases List.mem_filter.1 hx with ⟨hmem, hkeep⟩
    have hxp : x.1 = p := beq_iff_eq.1 hkey
    rw [hxp, isUnder_refl] at hkeep
    simp at hkeep
  rw [this]
  rfl

theorem FS.dirExists_removeAll_self (fs : FS) (p : FPath) :
    (fs.removeAll p).dirExists p = false := by
  unfold FS.dirExists FS.removeAll
  refine Bool.eq_false_iff.2 ?_
  intro hany
  rcases List.any_eq_true.1 hany with ⟨d, hd, hkey⟩
  rcases List.mem_filter.1 hd with ⟨hmem, hkeep⟩
  have hdp : d = p := beq_iff_eq.1 hkey
  rw [hdp, isUnder_refl] at hkeep
  simp at hkeep

theorem FS.existsSync_removeAll_self (fs : FS) (p : FPath) :
    (fs.removeAll p).existsSync p = false := by
  unfold FS.existsSync
  rw [fs.lookup_removeAll_self p, fs.dirExists_removeAll_self p]
  rfl

theorem FS.existsSync_removeAll_antitone (fs : FS) (p q : FPath)
    (h : (fs.removeAll p).existsSync q = true) : fs.existsSync q = true := by
  unfold FS.existsSync at h ⊢
  rw [Bool.or_eq_true] at h
  rcases h with h1 | h1
  · unfold FS.lookup FS.removeAll at h1
    rw [Option.isSome_map'] at h1
    rcases List.find?_isSome.1 h1 with ⟨x, hx, hkey⟩
    rcases List.mem_filter.1 hx with ⟨hmem, _⟩
    have : (fs.lookup q).isSome = true := by
      unfold FS.lookup
      rw [Option.isSome_map']
      exact List.find?_isSome.2 ⟨x, hmem, hkey⟩
    simp [this]
  · unfold FS.dirExists FS.removeAll at h1
    rcases List.any_eq_true.1 h1 with ⟨d, hd, hkey⟩
    rcases List.mem_filter.1 hd with ⟨hmem, _⟩
    have : fs.dirExists q = true := List.any_eq_true.2 ⟨d, hmem, hkey⟩
    simp [this]

theorem FS.dirEmpty_removeAll_of_disjoint (fs : FS) (p d : FPath)
    (h : ∀ q : FPath, isUnder p q = true → isUnder d q = false) :
    (fs.removeAll p).dirEmpty d = fs.dirEmpty d := by
  unfold FS.dirEmpty FS.removeAll
  have h1 : ∀ pr ∈ fs.files, (!(isUnder p pr.1)) = false →
      ((!(isUnder d pr.1)) || (pr.1 == d)) = true := by
    intro pr hpr hdrop
    simp at hdrop
    rw [h pr.1 hdrop]
    rfl
  have h2 : ∀ q ∈ fs.dirs, (!(isUnder p q)) = false →
      ((!(isUnder d q)) || (q == d)) = true := by
    intro q hq hdrop
    simp at hdrop
    rw [h q hdrop]
    rfl
  rw [all_filter_of_dropped_sat fs.files _ _ h1, all_filter_of_dropped_sat fs.dirs _ _ h2]

/-! Lemmas about the deletion loop and the watched-directory cleanup. -/

theorem removeEntry_outcome (fs : FS) (p : FPath) :
    (removeEntry fs p).2 =
      if fs.existsSync p then RemovalOutcome.Deleted else RemovalOutcome.NotFound := by
  unfold removeEntry
  split <;> rfl

theorem removeEntry_lookup_of_not_under (fs : FS) (p q : FPath)
    (h : isUnder p q = false) : (removeEntry fs p).1.lookup q = fs.lookup q := by
  unfold removeEntry
  split
  · exact fs.lookup_removeAll_of_not_under p q h
  · rfl

theorem removeEntry_existsSync_of_not_under (fs : FS) (p q : FPath)
    (h : isUnder p q = false) : (removeEntry fs p).1.existsSync q = fs.existsSync q := by
  unfold removeEntry
  split
  · exact fs.existsSync_removeAll_of_not_under p q h
  · rfl

theorem removeEntry_kill (fs : FS) (p : FPath) :
    (removeEntry fs p).1.existsSync p = false := by
  unfold removeEntry
  by_cases hex : fs.existsSync p = true
  · simp only [hex, if_true]
    exact fs.existsSync_removeAll_self p
  · simp only [Bool.not_eq_true] at hex
    simp [hex]

theorem removeEntry_antitone (fs : FS) (p q : FPath)
    (h : (removeEntry fs p).1.existsSync q = true) : fs.existsSync q = true := by
  unfold removeEntry at h
  by_cases hex : fs.existsSync p = true
  · rw [if_pos hex] at h
    exact fs.existsSync_removeAll_antitone p q h
  · rw [if_neg hex] at h
    exact h

theorem removeList_length (ps : List FPath) :
    ∀ fs : FS, (removeList fs ps).2.length = ps.length := by
  induction ps with
  | nil => intro fs; rfl
  | cons p ps ih =>
    intro fs
    simp only [removeList, List.length_cons]
    rw [ih]

theorem removeList_lookup_of_not_under (ps : List FPath) :
    ∀ (fs : FS) (q : FPath), (∀ p ∈ ps, isUnder p q = false) →
      (removeList fs ps).1.lookup q = fs.lookup q := by
  induction ps with
  | nil => intro fs q h; rfl
  | cons p ps ih =>
    intro fs q h
    simp only [removeList]
    rw [ih _ q (fun x hx => h x (List.mem_cons_of_mem p hx)),
      removeEntry_lookup_of_not_under fs p q (h p (List.mem_cons_self p ps))]

theorem removeList_existsSync_of_not_under (ps : List FPath) :
    ∀ (fs : FS) (q : FPath), (∀ p ∈ ps, isUnder p q = false) →
      (removeList fs ps).1.existsSync q = fs.existsSync q := by
  induction ps with
  | nil => intro fs q h; rfl
  | cons p ps ih =>
    intro fs q h
    simp only [removeList]
    rw [ih _ q (fun x hx => h x (List.mem_cons_of_mem p hx)),
      removeEntry_existsSync_of_not_under fs p q (h p (List.mem_cons_self p ps))]

theorem removeList_antitone (ps : List FPath) :
    ∀ (fs : FS) (q : FPath), (removeList fs ps).1.existsSync q = true →
      fs.existsSync q = true := by
  induction ps with
  | nil => intro fs q h; exact h
  | cons p ps ih =>
    intro fs q h
    exact removeEntry_antitone fs p q (ih _ q h)

theorem removeList_outcomes (ps : List FPath)
    (hpw : ps.Pairwise (fun a b => isUnder a b = false)) :
    ∀ fs : FS, (removeList fs ps).2 =
      ps.map (fun p =>
        if fs.existsSync p then RemovalOutcome.Deleted else RemovalOutcome.NotFound) := by
  induction ps with
  | nil => intro fs; rfl
  | cons p ps ih =>
    intro fs
    rcases List.pairwise_cons.1 hpw with ⟨hhead, htail⟩
    simp only [removeList, List.map_cons]
    rw [removeEntry_outcome fs p, ih htail]
    congr 1
    refine List.map_congr_left ?_
    intro q hq
    rw [removeEntry_existsSync_of_not_under fs p q (hhead q hq)]

theorem removeList_kills (ps : List FPath)
    (hpw : ps.Pairwise (fun a b => isUnder a b = false)) :
    ∀ fs : FS, ∀ p ∈ ps, (removeList fs ps).1.existsSync p = false := by
  induction ps with
  | nil => intro fs p hp; simp at hp
  | cons p0 ps ih =>
    intro fs p hp
    rcases List.pairwise_cons.1 hpw with ⟨hhead, htail⟩
    rcases List.mem_cons.1 hp with hp0 | hps
    · subst hp0
      refine Bool.eq_false_iff.2 ?_
      intro habs
      simp only [removeList] at habs
      have := removeList_antitone ps _ p habs
      rw [removeEntry_kill fs p] at this
      exact Bool.false_ne_true this
    · simp only [removeList]
      exact ih htail _ p hps

theorem cleanDir_lookup_of_not_under (fs : FS) (d q : FPath)
    (h : isUnder d q = false) : (cleanDir fs d).lookup q = fs.lookup q := by
  unfold cleanDir
  split
  · split
    · exact fs.lookup_removeAll_of_not_under d q h
    · rfl
  · rfl

theorem cleanDir_dirExists_of_not_under (fs : FS) (d q : FPath)
    (h : isUnder d q = false) : (cleanDir fs d).dirExists q = fs.dirExists q := by
  unfold cleanDir
  split
  · split
    · exact fs.dirExists_removeAll_of_not_under d q h
    · rfl
  · rfl

theorem cleanDir_existsSync_antitone (fs : FS) (d q : FPath)
    (h : (cleanDir fs d).existsSync q = true) : fs.existsSync q = true := by
  unfold cleanDir at h
  by_cases h1 : fs.dirExists d = true
  · rw [if_pos h1] at h
    by_cases h2 : fs.dirEmpty d = true
    · rw [if_pos h2] at h
      exact fs.existsSync_removeAll_antitone d q h
    · rw [if_neg h2] at h
      exact h
  · rw [if_neg h1] at h
    exact h

theorem cleanDir_dirExists_self (fs : FS) (d : FPath) :
    (cleanDir fs d).dirExists d = (fs.dirExists d && !(fs.dirEmpty d)) := by
  unfold cleanDir
  by_cases h1 : fs.dirExists d = true
  · rw [if_pos h1, h1]
    by_cases h2 : fs.dirEmpty d = true
    · rw [if_pos h2, h2]
      simp [fs.dirExists_removeAll_self d]
    · simp only [Bool.not_eq_true] at h2
      rw [if_neg (by simp [h2]), h2, h1]
      rfl
  · simp only [Bool.not_eq_true] at h1
    rw [if_neg (by simp [h1]), h1]
    rfl

theorem cleanDir_dirEmpty_of_disjoint (fs : FS) (d2 d : FPath)
    (h : ∀ q : FPath, isUnder d2 q = true → isUnder d q = false) :
    (cleanDir fs d2).dirEmpty d = fs.dirEmpty d := by
  unfold cleanDir
  split
  · split
    · exact fs.dirEmpty_removeAll_of_disjoint d2 d h
    · rfl
  · rfl

theorem cleanDir_noop_of_not_empty (fs : FS) (d : FPath)
    (h : fs.dirEmpty d = false) : cleanDir fs d = fs := by
  unfold cleanDir
  split
  · rw [if_neg (by simp [h])]
  · rfl

theorem uninstall_outcomes_eq (fs : FS) :
    (uninstall fs).2 = (removeList fs filesToDelete).2 := rfl

theorem uninstall_fs_eq (fs : FS) :
    (uninstall fs).1 =
      cleanDir (cleanDir (removeList fs filesToDelete).1
        ["app", "api", "keep-alive"]) ["config"] := by
  simp only [uninstall, dirsToClean, List.foldl]

/-! Disjointness of the two watched directories. -/

theorem under_keepalive_not_config (q : FPath)
    (h : isUnder ["app", "api", "keep-alive"] q = true) :
    isUnder ["config"] q = false :=
  isUnder_head_disjoint ["api", "keep-alive"] [] q (by decide) h

theorem under_config_not_keepalive (q : FPath)
    (h : isUnder ["config"] q = true) :
    isUnder ["app", "api", "keep-alive"] q = false :=
  isUnder_head_disjoint [] ["api", "keep-alive"] q (by decide) h

/-- Concrete starting tree for the C1 witness: the user already has a
vercel.json of their own. -/
def fsC1 : FS := ⟨[(["vercel.json"], "user vercel config")], []⟩

/-- C1: for every manifest entry, a file already present at the entry
destination before provisioning is left with its contents unchanged by
init: the copy is not performed and the file is never overwritten.  When
the source template exists (as shipped), the entry is reported through the
caught already-exists error, the outcome the program actually produces for
a pre-existing destination, confirming that no write took place. -/
theorem C1_provision_preserves_existing (t : Templates)
    (url anonKey : Option String) (fs : FS) (i : Nat) (e : ManifestEntry)
    (c : String) (hg : filesToCopy.get? i = some e)
    (h : fs.lookup e.dest = some c) :
    (init t url anonKey fs).fs.lookup e.dest = some c ∧
      ((t e.src).isSome = true →
        (init t url anonKey fs).outcomes.get? i =
          some (ProvisionOutcome.Failed (alreadyExistsMsg e))) := by
  constructor
  · exact init_lookup_mono t url anonKey fs e.dest c h
  · intro ht
    rw [init_outcomes_eq]
    refine provisionList_get?_already_exists t filesToCopy fs i e hg ht ?_
    simp [FS.existsSync, h]

/-- Witness for C1 at the fifth manifest entry on a tree that already holds
a vercel.json. -/
theorem C1_witness :
    (init sampleTemplates none none fsC1).fs.lookup ["vercel.json"] =
        some "user vercel config" ∧
      (init sampleTemplates none none fsC1).outcomes.get? 4 =
        some (ProvisionOutcome.Failed "vercel.json already exists") := by
  have h := C1_provision_preserves_existing sampleTemplates none none fsC1 4
    ⟨"vercel.json", ["vercel.json"], "Created vercel.json at vercel.json"⟩
    "user vercel config" (by decide) (by decide)
  refine ⟨h.1, ?_⟩
  have h2 := h.2 (by decide)
  rw [h2]
  decide

theorem init_fs_eq (t : Templates) (url anonKey : Option String) (fs : FS) :
    (init t url anonKey fs).fs =
      (checkAndCreateSupabaseClient t (provisionList t fs filesToCopy).1).fs := rfl

/-- C2: what the program actually does on the second of two consecutive
init runs (templates present): the already-exists error thrown by the copy
carries no code property, so the comparison of err.code with EEXIST in the
catch of init never succeeds and every manifest entry is reported through
the generic error branch, Failed with the already-exists message, not
SkippedExisting as the spec claims; the second run still alters no file
written by the first run, and the outcome list differs from the claimed
all-SkippedExisting list. -/
theorem C2_second_run_all_already_exists (t : Templates)
    (url anonKey : Option String) (fs : FS) (ht : templatesComplete t = true) :
    (init t url anonKey (init t url anonKey fs).fs).outcomes =
        filesToCopy.map (fun e => ProvisionOutcome.Failed (alreadyExistsMsg e)) ∧
      (init t url anonKey (init t url anonKey fs).fs).fs.files =
        (init t url anonKey fs).fs.files ∧
      (init t url anonKey (init t url anonKey fs).fs).outcomes ≠
        List.replicate filesToCopy.length ProvisionOutcome.SkippedExisting := by
  unfold templatesComplete at ht
  rw [Bool.and_eq_true] at ht
  have hall : ∀ e ∈ filesToCopy, (t e.src).isSome = true := List.all_eq_true.1 ht.1
  have hserver : (t "supabase-server.ts").isSome = true := ht.2
  have hdests1 : ∀ e ∈ filesToCopy,
      (init t url anonKey fs).fs.existsSync e.dest = true := by
    intro e he
    rw [init_fs_eq]
    exact checkClient_existsSync_mono t _ e.dest
      (provisionList_dests_exist t filesToCopy fs hall e he)
  have hclient1 : (init t url anonKey fs).fs.existsSync serverClientPath = true := by
    rw [init_fs_eq]
    exact checkClient_client_exists t _ hserver
  have hnoop := provisionList_second_run t filesToCopy (init t url anonKey fs).fs
    hall hdests1
  have hclient2 : (provisionList t (init t url anonKey fs).fs filesToCopy).1.existsSync
      serverClientPath = true :=
    provisionList_existsSync_mono t filesToCopy _ serverClientPath hclient1
  refine ⟨?_, ?_, ?_⟩
  · rw [init_outcomes_eq]
    exact hnoop.1
  · rw [init_fs_eq t url anonKey (init t url anonKey fs).fs,
      checkClient_noop t _ hclient2]
    exact hnoop.2
  · rw [init_outcomes_eq, hnoop.1]
    decide

/-- Witness for C2 starting from the empty tree with the shipped templates:
the second run reports five already-exists failures, none of the claimed
SkippedExisting outcomes, and changes no file. -/
theorem C2_witness :
    (init sampleTemplates none none (init sampleTemplates none none emptyFS).fs).outcomes =
        filesToCopy.map (fun e => ProvisionOutcome.Failed (alreadyExistsMsg e)) ∧
      (init sampleTemplates none none
            (init sampleTemplates none none emptyFS).fs).fs.files =
        (init sampleTemplates none none emptyFS).fs.files ∧
      (init sampleTemplates none none (init sampleTemplates none none emptyFS).fs).outcomes ≠
        List.replicate filesToCopy.length ProvisionOutcome.SkippedExisting :=
  C2_second_run_all_already_exists sampleTemplates none none emptyFS (by decide)

/-- C3: per-entry failures are collected, never fatal: both commands report
one outcome per manifest entry for every input (so a failing entry never
aborts the loop), both modelled commands complete and exit with status 0,
the catch handler maps an unexpected error to status 1, and on a concrete
run with a missing route.ts template the first entry fails while the four
remaining entries are still processed and created. -/
theorem C3_per_entry_failures_not_fatal (t : Templates)
    (url anonKey : Option String) (fs : FS) :
    (init t url anonKey fs).outcomes.length = filesToCopy.length ∧
      exitCode (runInit t url anonKey fs) = 0 ∧
      (uninstall fs).2.length = filesToDelete.length ∧
      exitCode (runUninstall fs) = 0 ∧
      (∀ msg : String, exitCode (Except.error msg : Except String InitResult) = 1) ∧
      (init brokenTemplates none none emptyFS).outcomes =
        [ProvisionOutcome.Failed "Source does not exist: route.ts",
         ProvisionOutcome.Created, ProvisionOutcome.Created,
         ProvisionOutcome.Created, ProvisionOutcome.Created] := by
  refine ⟨init_outcomes_length t url anonKey fs, rfl, ?_, rfl, fun msg => rfl, ?_⟩
  · rw [uninstall_outcomes_eq]
    exact removeList_length filesToDelete fs
  · decide

/-- C4: decommissioning deletes each manifest path exactly when it is
present and reports NotFound when it is absent; every manifest path is gone
afterwards; and on a tree holding none of the manifest paths (no prior
provision) every entry reports NotFound and no error. -/
theorem C4_decommission_notfound (fs : FS) :
    (uninstall fs).2 = filesToDelete.map (fun p =>
        if fs.existsSync p then RemovalOutcome.Deleted else RemovalOutcome.NotFound) ∧
      (∀ p ∈ filesToDelete, (uninstall fs).1.existsSync p = false) ∧
      ((∀ p ∈ filesToDelete, fs.existsSync p = false) →
        (uninstall fs).2 =
          List.replicate filesToDelete.length RemovalOutcome.NotFound) := by
  have hpw : filesToDelete.Pairwise (fun a b => isUnder a b = false) := by decide
  refine ⟨?_, ?_, ?_⟩
  · rw [uninstall_outcomes_eq]
    exact removeList_outcomes filesToDelete hpw fs
  · intro p hp
    have h1 := removeList_kills filesToDelete hpw fs p hp
    rw [uninstall_fs_eq]
    refine Bool.eq_false_iff.2 ?_
    intro habs
    have h2 := cleanDir_existsSync_antitone _ _ _ habs
    have h3 := cleanDir_existsSync_antitone _ _ _ h2
    rw [h1] at h3
    exact Bool.false_ne_true h3
  · intro hnone
    rw [uninstall_outcomes_eq, removeList_outcomes filesToDelete hpw fs]
    have hcongr : ∀ p ∈ filesToDelete,
        (if fs.existsSync p then RemovalOutcome.Deleted else RemovalOutcome.NotFound) =
          RemovalOutcome.NotFound := by
      intro p hp
      rw [hnone p hp]
      rfl
    rw [List.map_congr_left hcongr]
    rfl

/-- Witness for C4 on the empty tree: five NotFound outcomes. -/
theorem C4_witness :
    (uninstall emptyFS).2 =
      List.replicate filesToDelete.length RemovalOutcome.NotFound :=
  (C4_decommission_notfound emptyFS).2.2 (by decide)

/-- Concrete starting tree for the C5 witness: the config directory holds
an unmanaged file of the user. -/
def fsC5 : FS := ⟨[(["config", "notes.txt"], "keep me")], [["config"]]⟩

/-- C5: after the manifest deletions, each watched directory is present
afterwards exactly when it was present and non-empty (equivalently, it is
removed exactly when it exists and is empty); and a watched directory that
still contains a file is left intact together with all file contents below
it. -/
theorem C5_watched_dirs (fs : FS) (d : FPath) (hd : d ∈ dirsToClean) :
    (uninstall fs).1.dirExists d =
        ((removeList fs filesToDelete).1.dirExists d &&
          !((removeList fs filesToDelete).1.dirEmpty d)) ∧
      ((removeList fs filesToDelete).1.dirEmpty d = false →
        ∀ (q : FPath) (c : String), isUnder d q = true →
          (removeList fs filesToDelete).1.lookup q = some c →
          (uninstall fs).1.lookup q = some c) := by
  fin_cases hd
  · constructor
    · rw [uninstall_fs_eq,
        cleanDir_dirExists_of_not_under _ _ _ (by decide),
        cleanDir_dirExists_self]
    · intro hne q c hq hl
      rw [uninstall_fs_eq,
        cleanDir_noop_of_not_empty _ _ hne,
        cleanDir_lookup_of_not_under _ _ _ (under_keepalive_not_config q hq)]
      exact hl
  · constructor
    · rw [uninstall_fs_eq, cleanDir_dirExists_self,
        cleanDir_dirExists_of_not_under _ _ _ (by decide),
        cleanDir_dirEmpty_of_disjoint _ _ _ under_keepalive_not_config]
    · intro hne q c hq hl
      have hq1 : isUnder ["app", "api", "keep-alive"] q = false :=
        under_config_not_keepalive q hq
      rw [uninstall_fs_eq,
        cleanDir_noop_of_not_empty _ _
          (by rw [cleanDir_dirEmpty_of_disjoint _ _ _ under_keepalive_not_config]
              exact hne),
        cleanDir_lookup_of_not_under _ _ _ hq1]
      exact hl

/-- Witness for C5 at the watched config directory holding an unmanaged
file: the directory survives decommissioning and the file is intact. -/
theorem C5_witness :
    (uninstall fsC5).1.dirExists ["config"] =
        ((removeList fsC5 filesToDelete).1.dirExists ["config"] &&
          !((removeList fsC5 filesToDelete).1.dirEmpty ["config"])) ∧
      (uninstall fsC5).1.lookup ["config", "notes.txt"] = some "keep me" := by
  have h := C5_watched_dirs fsC5 ["config"] (by decide)
  exact ⟨h.1, h.2 (by decide) ["config", "notes.txt"] "keep me" (by decide) (by decide)⟩

/-- C6: decommissioning never touches the database client module at
lib/supabase/server.ts: its contents are unchanged for every starting
tree, and its path is not part of the removal manifest. -/
theorem C6_client_module_preserved (fs : FS) :
    (uninstall fs).1.lookup serverClientPath = fs.lookup serverClientPath ∧
      serverClientPath ∉ filesToDelete := by
  constructor
  · rw [uninstall_fs_eq,
      cleanDir_lookup_of_not_under _ _ _ (by decide),
      cleanDir_lookup_of_not_under _ _ _ (by decide)]
    exact removeList_lookup_of_not_under filesToDelete fs serverClientPath (by decide)
  · decide

/-- C7: each of the four data-access operations re-raises exactly the error
object the remote store reported whenever one is reported, and otherwise
returns the requested record or records exactly as the remote store
returned them, with no further processing. -/
theorem C7_data_access_pass_through (d : ChatbotInsert) (e : RemoteError)
    (b : Option Chatbot) (l : Option (List Chatbot)) (u s i : String) :
    createChatbot d ⟨b, some e⟩ = Except.error e ∧
      createChatbot d ⟨b, none⟩ = Except.ok b ∧
      getChatbotsByUserId u ⟨l, some e⟩ = Except.error e ∧
      getChatbotsByUserId u ⟨l, none⟩ = Except.ok l ∧
      getChatbotBySlug s ⟨b, some e⟩ = Except.error e ∧
      getChatbotBySlug s ⟨b, none⟩ = Except.ok b ∧
      deleteChatbot i ⟨some e⟩ = Except.error e ∧
      deleteChatbot i ⟨none⟩ = Except.ok true :=
  ⟨rfl, rfl, rfl, rfl, rfl, rfl, rfl, rfl⟩

/-- Concrete starting tree for the C8 witness: a client file exists only at
an alternate common path. -/
def fsC8 : FS := ⟨[(["utils", "supabase", "server.ts"], "existing client")], []⟩

/-- C8: the database client file is provisioned conditionally: when a file
is present at the canonical path the check changes nothing, and when the
canonical path is free the client is created there from its template even
if a client exists at an alternate common path, in which case that path is
warned about. -/
theorem C8_conditional_client_provisioning (t : Templates) (fs : FS)
    (c : String) (ht : t "supabase-server.ts" = some c) :
    (fs.existsSync serverClientPath = true →
        checkAndCreateSupabaseClient t fs = ⟨fs, [], false⟩) ∧
      (fs.existsSync serverClientPath = false →
        (checkAndCreateSupabaseClient t fs).created = true ∧
          (checkAndCreateSupabaseClient t fs).fs.lookup serverClientPath = some c ∧
          (∀ p ∈ commonPaths, fs.existsSync p = true →
            p ∈ (checkAndCreateSupabaseClient t fs).warnings)) := by
  constructor
  · exact checkClient_noop t fs
  · intro hex
    have hlook : fs.lookup serverClientPath = none := by
      unfold FS.existsSync at hex
      rcases Bool.or_eq_false_iff.1 hex with ⟨h1, h2⟩
      exact Option.not_isSome_iff_eq_none.1 (by simp [h1])
    unfold checkAndCreateSupabaseClient
    simp only [hex, Bool.false_eq_true, if_false, ht]
    refine ⟨trivial, ?_, ?_⟩
    · exact FS.lookup_writeFile_self _ _ _ (by rw [FS.lookup_ensureDir]; exact hlook)
    · intro p hp hpex
      exact List.mem_filter.2 ⟨hp, hpex⟩

/-- Witness for C8 on a tree whose only client sits at an alternate path:
the canonical client is still created and the alternate path is warned
about. -/
theorem C8_witness :
    (checkAndCreateSupabaseClient sampleTemplates fsC8).created = true ∧
      ["utils", "supabase", "server.ts"] ∈
        (checkAndCreateSupabaseClient sampleTemplates fsC8).warnings := by
  have h := (C8_conditional_client_provisioning sampleTemplates fsC8
    "supabase-server.ts" rfl).2 (by decide)
  exact ⟨h.1, h.2.2 ["utils", "supabase", "server.ts"] (by decide) (by decide)⟩

/-- C9: deleteChatbot answers Except.ok true whenever the remote call
reports no error; in particular, against the modelled remote store a delete
of an id with no matching record reports no error, so deleting a
nonexistent id is indistinguishable from a successful deletion (the result
type carries no NotFound outcome, only the error slot is inspected). -/
theorem C9_delete_no_notfound (id : String) (r : DeleteResp)
    (h : r.error = none) :
    deleteChatbot id r = Except.ok true ∧
      (∀ tbl : List Chatbot,
        deleteChatbot id (remoteDelete tbl id).2 = Except.ok true) ∧
      (∀ tbl tbl2 : List Chatbot,
        deleteChatbot id (remoteDelete tbl id).2 =
          deleteChatbot id (remoteDelete tbl2 id).2) := by
  refine ⟨?_, fun tbl => rfl, fun tbl tbl2 => rfl⟩
  cases r with
  | mk err =>
    cases h
    rfl

/-- Witness for C9: deleting an id against the empty store succeeds. -/
theorem C9_witness : deleteChatbot "missing-id" ⟨none⟩ = Except.ok true :=
  (C9_delete_no_notfound "missing-id" ⟨none⟩ rfl).1

/-- C10: when either environment variable is absent, loading the
data-access module throws the Missing Supabase environment variables error
at module-initialization time, while the provisioning flow under the same
environment merely warns and still completes with one outcome per entry
and exit status 0. -/
theorem C10_missing_env_vars (url anonKey : Option String)
    (h : url = none ∨ anonKey = none) :
    loadSupabaseModule url anonKey =
        Except.error "Missing Supabase environment variables" ∧
      ∀ (t : Templates) (fs : FS),
        (init t url anonKey fs).envWarning = true ∧
          (init t url anonKey fs).outcomes.length = filesToCopy.length ∧
          exitCode (runInit t url anonKey fs) = 0 := by
  have hfal : (!(jsTruthy url) || !(jsTruthy anonKey)) = true := by
    rcases h with h | h <;> subst h <;> simp [jsTruthy]
  constructor
  · unfold loadSupabaseModule
    rw [if_pos hfal]
  · intro t fs
    refine ⟨?_, init_outcomes_length t url anonKey fs, rfl⟩
    show (!(jsTruthy url) || !(jsTruthy anonKey)) = true
    exact hfal

/-- Witness for C10 with the project URL absent and the key present. -/
theorem C10_witness :
    loadSupabaseModule none (some "anon-key") =
        Except.error "Missing Supabase environment variables" ∧
      (init sampleTemplates none (some "anon-key") emptyFS).envWarning = true := by
  have h := C10_missing_env_vars none (some "anon-key") (Or.inl rfl)
  exact ⟨h.1, (h.2 sampleTemplates emptyFS).1⟩
